import Mathlib

/-!
Verification of the DataFetcher repository (src/DataFetcher.js).

The development shallowly embeds the parts of `DataFetcher` that the claims
are about:

* JavaScript object values and records (`Val`, `Rec`) with property get/set;
* `verifyConfig` (the constructor's mandatory-field check);
* `loadSeedDataCSV` (seed ingestion, ordinal `id` and raw `org` assignment);
* `isFetched` / `getRelevantFields` (the dedup membership test);
* the `Task` closure of `run()` (the per-tick scheduler), with the run-local
  mutable variables gathered into a `RunState` and the per-tick environment
  (current time, fetch outcome, rate-limit answer, append success) passed
  explicitly; the extra `Bool` returned by `Task` records whether the tick
  reached the fetch call (lines 202-234 of the source);
* `postRefineCSV` (the post-run reassembly pass), with file contents modelled
  as strings and the pair's second component recording a thrown error.
-/

namespace DataFetcher

/-- A JavaScript value as it occurs in the records this program builds:
a string cell, a number (the ordinal `id`), or `undefined` (out-of-range
column access). -/
inductive Val where
  | str : String → Val
  | num : Nat → Val
  | undef : Val
deriving DecidableEq, Repr

/-- A JavaScript object as used for seed rows and done-records: an ordered
association list of property names to values (insertion order preserved,
assignment overwrites in place). -/
abbrev Rec := List (String × Val)

/-- Property read `r[k]`: the first binding of `k`, or `undefined`. -/
def getField (r : Rec) (k : String) : Val :=
  match r.find? (fun p => p.1 == k) with
  | some p => p.2
  | none => Val.undef

/-- Property write `r[k] = v`: overwrite the existing binding in place, or
append a new one (JavaScript object assignment semantics). -/
def setField (r : Rec) (k : String) (v : Val) : Rec :=
  if r.any (fun p => p.1 == k) then
    r.map (fun p => if p.1 == k then (k, v) else p)
  else
    r ++ [(k, v)]

/-- `getRelevantFields(seedRow)` (source lines 470-479): the object holding
`seedRow`'s value for each declared column name. -/
def getRelevantFields (names : List String) (row : Rec) : Rec :=
  names.map (fun n => (n, getField row n))

/-- `isFetched(doneRecords, seedRow)` (source lines 434-450): counts the
declared key columns on which a done-record and the seed row agree under
strict equality, and reports membership when every column matched. -/
def isFetched (names : List String) (done : List Rec) (row : Rec) : Bool :=
  done.any (fun d =>
    names.countP (fun c => getField d c == getField row c) == names.length)

/-- The configuration fields the embedded operations consult, matching the
keys of `getDefaultConfiguration()`.  `names` is `seedDataColumnNames`
(the keys of `relevantSeedDataColumns`). -/
structure Config where
  taskInterval : Nat
  taskBackOffMinutes : Nat
  randomizeSeedOrder : Bool
  maxRecordFailCount : Nat
  maxFailCount : Nat
  sleepIntervalsAfterFail : Nat
  discardBackOffResponse : Bool
  postRunRefineEnabled : Bool
  names : List String
  sep : String
  lineTerm : String

/-- A persisted fetch outcome: the remote payload with the originating seed
row attached as `_seedrow` (source line 248). -/
structure Resp where
  payload : Rec
  seedrow : Rec
deriving DecidableEq, Repr

/-- The run-local mutable variables of `run()` (source lines 142-150),
plus the observable effects: the appended response-log entries, the
in-memory refine buffer (`cachedResponses`), whether `Stop()` has executed,
and the buffer `Stop()` handed to the reassembly pass (when enabled). -/
structure RunState where
  sleepUntil : Nat
  taskRunning : Bool
  currentFailCount : Nat
  currentRecordFailCount : Nat
  fetchesSinceLastBackOff : Nat
  currentLine : Nat
  doneRecords : List Rec
  cachedResponses : List Resp
  log : List Resp
  stopped : Bool
  refineInput : Option (List Resp)
deriving DecidableEq, Repr

/-- `seedData[i]` for an in-range index. -/
def getRow (seed : List Rec) (i : Nat) : Rec :=
  seed.getD i []

/-- `Stop()` (source lines 276-284): clear the interval and, when refinement
is enabled, run the reassembly pass over the cached responses. -/
def doStop (cfg : Config) (st : RunState) : RunState :=
  { st with
    stopped := true
    refineInput :=
      if cfg.postRunRefineEnabled then some st.cachedResponses else st.refineInput }

/-- One tick of the `Task` closure (source lines 154-273).  The per-tick
environment is explicit: `now` is `Date.now()`, `fetchRes` is the outcome of
`fetchRemoteRecord` (`none` models the exception), `limitRate` the answer of
`queryBackOff`, and `appendOk` whether `fs.appendFileSync` succeeds (on
`false` the tick dies with the exception, leaving `taskRunning` set).  The
returned `Bool` records whether this tick performed a fetch attempt. -/
def Task (cfg : Config) (seed : List Rec) (endLine : Nat) (now : Nat)
    (fetchRes : Option Rec) (limitRate : Bool) (appendOk : Bool)
    (st : RunState) : RunState × Bool :=
  if st.taskRunning then
    ({ st with sleepUntil := now + 200 }, false)
  else if endLine ≤ st.currentLine then
    (doStop cfg st, false)
  else if cfg.maxFailCount ≤ st.currentFailCount then
    (doStop cfg st, false)
  else if now < st.sleepUntil then
    (st, false)
  else if isFetched cfg.names st.doneRecords (getRow seed st.currentLine) then
    ({ st with currentLine := st.currentLine + 1 }, false)
  else
    match fetchRes with
    | none =>
      let st1 :=
        if cfg.maxRecordFailCount ≤ st.currentRecordFailCount then
          { st with currentLine := st.currentLine + 1, currentRecordFailCount := 0 }
        else
          { st with currentRecordFailCount := st.currentRecordFailCount + 1 }
      ({ st1 with
          currentFailCount := st1.currentFailCount + 1
          sleepUntil := now + cfg.taskInterval * cfg.sleepIntervalsAfterFail }, true)
    | some payload =>
      let st1 := { st with
        currentFailCount := 0
        currentRecordFailCount := 0
        fetchesSinceLastBackOff := st.fetchesSinceLastBackOff + 1 }
      if limitRate && cfg.discardBackOffResponse then
        ({ st1 with
            fetchesSinceLastBackOff := 0
            sleepUntil := now + cfg.taskBackOffMinutes * 60 * 1000 }, true)
      else if !appendOk then
        ({ st1 with taskRunning := true }, true)
      else
        let resp : Resp := ⟨payload, getRow seed st.currentLine⟩
        let st2 := { st1 with
          log := st1.log ++ [resp]
          doneRecords :=
            st1.doneRecords ++ [getRelevantFields cfg.names (getRow seed st.currentLine)]
          cachedResponses :=
            if cfg.postRunRefineEnabled then st1.cachedResponses ++ [resp]
            else st1.cachedResponses }
        let st3 :=
          if limitRate && !cfg.discardBackOffResponse then
            { st2 with
                fetchesSinceLastBackOff := 0
                sleepUntil := now + cfg.taskBackOffMinutes * 60 * 1000 }
          else
            { st2 with sleepUntil := now }
        ({ st3 with currentLine := st3.currentLine + 1 }, true)

/-- The environment a single tick runs against. -/
structure TickInput where
  now : Nat
  fetchRes : Option Rec
  limitRate : Bool
  appendOk : Bool

/-- Whether any tick of a sequence of ticks performs a fetch attempt. -/
def ticksFetch (cfg : Config) (seed : List Rec) (endLine : Nat) :
    List TickInput → RunState → Bool
  | [], _ => false
  | i :: is, st =>
    (Task cfg seed endLine i.now i.fetchRes i.limitRate i.appendOk st).2
      || ticksFetch cfg seed endLine is
          (Task cfg seed endLine i.now i.fetchRes i.limitRate i.appendOk st).1

/-- Repeatedly run failing ticks (`fetchRes = none`), each at the earliest
eligible time (`now` equal to the current sleep deadline). -/
def failTicks (cfg : Config) (seed : List Rec) (endLine : Nat) :
    Nat → RunState → RunState
  | 0, st => st
  | k + 1, st =>
    failTicks cfg seed endLine k
      (Task cfg seed endLine st.sleepUntil none false true st).1

/-- The `mandatoryFields` array of `verifyConfig()` (source lines 108-114),
verbatim and in order. -/
def mandatoryFields : List String :=
  ["taskInterval", "taskBackOffMinutes", "randomizeSeedOrder", "randomizeUserAgent",
   "runType", "seedFilename", "responseCacheFilename", "remoteServiceUrl",
   "fetchEnabled", "relevantSeedDataColumns", "seedDataFormat",
   "discardBackOffResponse", "getBodyToPassToRemoteServer", "queryBackOff",
   "mutateImportedSeedRow", "postRunRefineRecord"]

/-- `verifyConfig()` (source lines 106-121) over the set of property names the
configuration object owns: throw at the first mandatory field that is
missing. -/
def verifyConfig (present : List String) : Except String Unit :=
  match mandatoryFields.find? (fun f => !present.contains f) with
  | some f => Except.error ("Missing mandatory field: " ++ f)
  | none => Except.ok ()

/-- If `sep` is an initial segment of `l`, strip it and return the rest. -/
def stripSep : List Char → List Char → Option (List Char)
  | [], l => some l
  | _ :: _, [] => none
  | c :: cs, d :: ds => if c = d then stripSep cs ds else none

/-- Worker for `jsSplit`: scan left to right, cutting at every non-overlapping
occurrence of the separator; `fuel` only bounds the recursion and never runs
out when it starts at the length of the scanned text plus one and the
separator is non-empty. -/
def splitGo (sep : List Char) : Nat → List Char → List Char → List (List Char)
  | 0, acc, _ => [acc.reverse]
  | _ + 1, acc, [] => [acc.reverse]
  | fuel + 1, acc, c :: cs =>
    match stripSep sep (c :: cs) with
    | some rest => acc.reverse :: splitGo sep fuel [] rest
    | none => splitGo sep fuel (c :: acc) cs

/-- JavaScript's `str.split(sep)` for a non-empty string separator: the list
of chunks between non-overlapping occurrences of `sep`, scanned left to
right (a trailing separator yields a trailing empty chunk). -/
def jsSplit (sep s : String) : List String :=
  (splitGo sep.data (s.data.length + 1) [] s.data).map (fun l => String.mk l)

/-- `line[j]` on the cell array produced by `split`: a string in range,
`undefined` out of range. -/
def cellVal (cells : List String) (j : Nat) : Val :=
  match cells.get? j with
  | some s => Val.str s
  | none => Val.undef

/-- The named-field copy loop of `loadSeedDataCSV` (source lines 332-335):
`newRec[names[j]] = line[indices[j]]`. -/
def buildSeedRec (names : List String) (indices : List Nat) (cells : List String) : Rec :=
  (names.zip indices).foldl (fun r p => setField r p.1 (cellVal cells p.2)) []

/-- `loadSeedDataCSV` (source lines 312-349): split the file on the line
terminator, skip the header line, and per remaining line copy the declared
columns, then assign the ordinal `id`, then the raw line `org`, then apply
the `mutateImportedSeedRow` hook. -/
def loadSeedDataCSV (mutateImportedSeedRow : Rec → Rec) (names : List String) (indices : List Nat)
    (lineTerm sep : String) (csv : String) : List Rec :=
  ((jsSplit lineTerm csv).enum.drop 1).map (fun p =>
    mutateImportedSeedRow (setField
          (setField (buildSeedRec names indices (jsSplit sep p.2)) "id" (Val.num p.1))
          "org" (Val.str p.2)))

/-- `Array.prototype.join(sep)` on a list of strings. -/
def joinSep (sep : String) : List String → String
  | [] => ""
  | [x] => x
  | x :: y :: xs => x ++ sep ++ joinSep sep (y :: xs)

/-- `response._seedrow.id` as the numeric sort key of `postRefineCSV`'s
comparator (source line 498). -/
def seedId (r : Resp) : Nat :=
  match getField r.seedrow "id" with
  | Val.num n => n
  | _ => 0

/-- `response._seedrow.org`, the verbatim original seed line (source line
543). -/
def seedOrg (r : Resp) : String :=
  match getField r.seedrow "org" with
  | Val.str s => s
  | _ => ""

/-- The header line written for the first response (source lines 516-525):
original column names, separator, the new field names joined by the
separator, line terminator. -/
def headerLine (cfg : Config) (columnNames : String) (ks : List String) : String :=
  columnNames ++ cfg.sep ++ joinSep cfg.sep ks ++ cfg.lineTerm

/-- One reassembled data line (source lines 542-550): the raw original seed
line, separator, the new field values joined by the separator, line
terminator. -/
def refineLine (cfg : Config) (r : Resp) (nd : List (String × String)) : String :=
  seedOrg r ++ cfg.sep ++ joinSep cfg.sep (nd.map Prod.snd) ++ cfg.lineTerm

/-- The thrown message for a key-count mismatch (source line 532). -/
def refineCountErr : String :=
  "Post-refine function returned an object with a different number of keys than the first row."

/-- The thrown message for a key-order mismatch (source line 537). -/
def refineOrderErr : String :=
  "Post-refine function returned an object with a different order of keys than the first row."

/-- The reassembly loop after the first response (source lines 506-553):
per response, check the collaborator's key list against the first row's
(count first, then position by position), and either throw or append the
reassembled line.  Returns the appended text together with the thrown
error, if any. -/
def refineRest (cfg : Config) (refineFn : Resp → List (String × String))
    (ks : List String) : List Resp → String × Option String
  | [] => ("", none)
  | r :: rs =>
    let nd := refineFn r
    if (nd.map Prod.fst).length ≠ ks.length then
      ("", some refineCountErr)
    else if nd.map Prod.fst ≠ ks then
      ("", some refineOrderErr)
    else
      let rest := refineRest cfg refineFn ks rs
      (refineLine cfg r nd ++ rest.1, rest.2)

/-- The whole reassembly loop: the first response fixes the schema and
writes the header line plus its own data line, the rest go through
`refineRest`. -/
def postRefineBody (cfg : Config) (refineFn : Resp → List (String × String))
    (columnNames : String) : List Resp → String × Option String
  | [] => ("", none)
  | r :: rs =>
    let nd := refineFn r
    let ks := nd.map Prod.fst
    let rest := refineRest cfg refineFn ks rs
    (headerLine cfg columnNames ks ++ refineLine cfg r nd ++ rest.1, rest.2)

/-- The `responses.sort((a, b) => a._seedrow.id - b._seedrow.id)` call
(source lines 495-500), as a stable sort on the numeric ordinal. -/
def sortResponses (responses : List Resp) : List Resp :=
  List.insertionSort (fun a b => seedId a ≤ seedId b) responses

/-- `postRefineCSV(responses, columnNames)` (source lines 484-556): undo the
randomized order when permutation is enabled, then run the reassembly loop.
The first component is the content of the refined output file, the second
the thrown error, if any. -/
def postRefineCSV (cfg : Config) (refineFn : Resp → List (String × String))
    (columnNames : String) (responses : List Resp) : String × Option String :=
  postRefineBody cfg refineFn columnNames
    (if cfg.randomizeSeedOrder then sortResponses responses else responses)

/-- The two files `postRefineCSV` could conceivably touch: the response log
(`responseCacheFilename`) and the refined output artifact. -/
structure FileState where
  responseLog : String
  refined : Option String
deriving DecidableEq, Repr

/-- `postRefineCSV` acting on the file system: the pre-existing refined
artifact is deleted and replaced by the newly written content (partial on a
thrown error); the error, if any, is returned alongside. -/
def postRefineFS (cfg : Config) (refineFn : Resp → List (String × String))
    (columnNames : String) (responses : List Resp) (w : FileState) :
    FileState × Option String :=
  let out := postRefineCSV cfg refineFn columnNames responses
  ({ w with refined := some out.1 }, out.2)

/-! ### Helper lemmas -/

theorem find_map_set_same (r : Rec) (k : String) (v : Val)
    (h : r.any (fun p => p.1 == k) = true) :
    (r.map (fun p => if p.1 == k then (k, v) else p)).find? (fun p => p.1 == k)
      = some (k, v) := by
  induction r with
  | nil => simp at h
  | cons p r ih =>
    rw [List.map_cons]
    by_cases hp : p.1 = k
    · rw [if_pos (by simpa using hp)]
      exact List.find?_cons_of_pos _ (by simp)
    · rw [if_neg (by simpa using hp)]
      rw [List.find?_cons_of_neg _ (by simpa using hp)]
      apply ih
      simpa [beq_false_of_ne hp] using h

theorem find_map_set_other (r : Rec) (k k' : String) (v : Val) (hne : k' ≠ k) :
    (r.map (fun p => if p.1 == k' then (k', v) else p)).find? (fun p => p.1 == k)
      = r.find? (fun p => p.1 == k) := by
  induction r with
  | nil => simp
  | cons p r ih =>
    rw [List.map_cons]
    by_cases hp : p.1 = k'
    · rw [if_pos (by simpa using hp)]
      rw [List.find?_cons_of_neg _ (by simpa using hne)]
      rw [List.find?_cons_of_neg _ (by simp only [hp, beq_iff_eq]; exact hne)]
      exact ih
    · rw [if_neg (by simpa using hp)]
      by_cases hk : p.1 = k
      · rw [List.find?_cons_of_pos _ (by simpa using hk),
            List.find?_cons_of_pos _ (by simpa using hk)]
      · rw [List.find?_cons_of_neg _ (by simpa using hk),
            List.find?_cons_of_neg _ (by simpa using hk)]
        exact ih

theorem getField_setField_same (r : Rec) (k : String) (v : Val) :
    getField (setField r k v) k = v := by
  unfold setField getField
  by_cases h : r.any (fun p => p.1 == k) = true
  · rw [if_pos h, find_map_set_same r k v h]
  · rw [if_neg h]
    have hnone : r.find? (fun p => p.1 == k) = none := by
      rw [List.find?_eq_none]
      intro x hx
      intro hxk
      exact h (List.any_eq_true.2 ⟨x, hx, hxk⟩)
    rw [List.find?_append, hnone]
    simp [List.find?]

theorem getField_setField_other (r : Rec) (k k' : String) (v : Val) (hne : k' ≠ k) :
    getField (setField r k' v) k = getField r k := by
  unfold setField getField
  by_cases h : r.any (fun p => p.1 == k') = true
  · rw [if_pos h, find_map_set_other r k k' v hne]
  · rw [if_neg h, List.find?_append]
    cases hf : r.find? (fun p => p.1 == k) with
    | some p => simp
    | none => simp [List.find?, beq_false_of_ne hne]

theorem isFetched_iff (names : List String) (done : List Rec) (row : Rec) :
    isFetched names done row = true ↔
      ∃ d ∈ done, ∀ c ∈ names, getField d c = getField row c := by
  simp [isFetched, List.any_eq_true, List.countP_eq_length]

theorem getField_getRelevantFields (names : List String) (row : Rec) (c : String)
    (hc : c ∈ names) :
    getField (getRelevantFields names row) c = getField row c := by
  induction names with
  | nil => simp at hc
  | cons n ns ih =>
    unfold getRelevantFields at ih ⊢
    rw [List.map_cons]
    by_cases hn : n = c
    · unfold getField
      rw [List.find?_cons_of_pos _ (by simpa using hn), hn]
    · unfold getField at ih ⊢
      rw [List.find?_cons_of_neg _ (by simpa using hn)]
      exact ih (by rcases List.mem_cons.1 hc with h | h; exact absurd h.symm hn; exact h)

/-! ### Claim C3 -/

/-- C3: the dedup membership test `isFetched` returns `true` iff some prior
done-record agrees with the seed row on every declared key column under
strict equality; in particular a record agreeing on all key columns is a
member even if other columns differ, and a row matching every prior record
on only some key columns is not a member. -/
theorem c3_dedup_membership (names : List String) (done : List Rec) (row : Rec) :
    (isFetched names done row = true ↔
      ∃ d ∈ done, ∀ c ∈ names, getField d c = getField row c)
    ∧ (∀ d : Rec, (∀ c ∈ names, getField d c = getField row c) →
        isFetched names [d] row = true)
    ∧ ((∀ d ∈ done, ∃ c ∈ names, getField d c ≠ getField row c) →
        isFetched names done row = false) := by
  refine ⟨isFetched_iff names done row, ?_, ?_⟩
  · intro d h
    exact (isFetched_iff names [d] row).2 ⟨d, by simp, h⟩
  · intro h
    cases hb : isFetched names done row with
    | false => rfl
    | true =>
      rcases (isFetched_iff names done row).1 hb with ⟨d, hd, hall⟩
      rcases h d hd with ⟨c, hc, hne⟩
      exact absurd (hall c hc) hne

/-- Witness for C3: a done-record equal on the single key column `a` but
different on the non-key column `b` is recognized as already fetched. -/
theorem c3_dedup_membership_witness :
    isFetched ["a"] [[("a", Val.str "x"), ("b", Val.str "y")]]
      [("a", Val.str "x"), ("b", Val.str "z")] = true :=
  (c3_dedup_membership ["a"] [] [("a", Val.str "x"), ("b", Val.str "z")]).2.1
    [("a", Val.str "x"), ("b", Val.str "y")] (by decide)

/-! ### Claim C7 -/

/-- C7 counterexample: a configuration owning exactly the sixteen fields of
the code's `mandatoryFields` list passes `verifyConfig` even though it has
no `maxRecordFailCount`, no `maxFailCount` and no `sleepIntervalsAfterFail`
setting, so a configuration missing those required settings does not fail
at startup. -/
theorem c7_counterexample :
    verifyConfig mandatoryFields = Except.ok ()
    ∧ "maxRecordFailCount" ∉ mandatoryFields
    ∧ "maxFailCount" ∉ mandatoryFields
    ∧ "sleepIntervalsAfterFail" ∉ mandatoryFields := by
  refine ⟨rfl, by decide, by decide, by decide⟩

/-- C7 (amended): construction fails at startup (before any seed loading or
network activity) exactly when one of the sixteen fields in the code's
`mandatoryFields` list is missing; the max per-record failure count, the max
run-wide failure count and the post-failure extra sleep multiplier are not
among the checked fields. -/
theorem c7_config_check (present : List String) :
    ((∃ f ∈ mandatoryFields, f ∉ present) →
      ∃ e, verifyConfig present = Except.error e)
    ∧ (verifyConfig present = Except.ok () ↔ ∀ f ∈ mandatoryFields, f ∈ present)
    ∧ "maxRecordFailCount" ∉ mandatoryFields
    ∧ "maxFailCount" ∉ mandatoryFields
    ∧ "sleepIntervalsAfterFail" ∉ mandatoryFields := by
  have hiff : verifyConfig present = Except.ok () ↔ ∀ f ∈ mandatoryFields, f ∈ present := by
    unfold verifyConfig
    cases hf : mandatoryFields.find? (fun f => !present.contains f) with
    | some f =>
      have hpf' : (!present.contains f) = true := (List.find?_eq_some.1 hf).1
      have hmem : f ∈ mandatoryFields := List.mem_of_find?_eq_some hf
      constructor
      · intro h
        cases h
      · intro hall
        have hc : present.contains f = true :=
          List.contains_iff_exists_mem_beq.2 ⟨f, hall f hmem, by simp⟩
        rw [hc] at hpf'
        simp at hpf'
    | none =>
      constructor
      · intro _ f hfm
        have h1 : ¬ (fun g => !present.contains g) f = true := List.find?_eq_none.1 hf f hfm
        have h2 : present.contains f = true := by
          cases hc : present.contains f with
          | false => exact absurd (show (!present.contains f) = true by rw [hc]; rfl) h1
          | true => rfl
        rcases List.contains_iff_exists_mem_beq.1 h2 with ⟨b, hb, hfb⟩
        have hfb' : f = b := by simpa using hfb
        rwa [hfb']
      · intro _
        rfl
  refine ⟨?_, hiff, by decide, by decide, by decide⟩
  intro ⟨f, hfm, hfp⟩
  cases he : verifyConfig present with
  | error e => exact ⟨e, rfl⟩
  | ok u =>
    cases u
    exact absurd (hiff.1 he f hfm) hfp

/-- Witness for C7 (amended): a configuration owning only `taskInterval`
fails the startup check. -/
theorem c7_config_check_witness :
    ∃ e, verifyConfig ["taskInterval"] = Except.error e :=
  (c7_config_check ["taskInterval"]).1 ⟨"taskBackOffMinutes", by decide, by decide⟩

/-! ### Claim C6 -/

/-- C6 counterexample: a tick that hits the single-flight guard
(`taskRunning` true) does not leave the run state unchanged — it moves the
sleep deadline to `now + 200`. -/
theorem c6_counterexample :
    (⟨0, true, 0, 0, 0, 0, [], [], [], false, none⟩ : RunState).taskRunning = true
    ∧ (Task ⟨2000, 1, false, 5, 25, 3, false, false, [], ",", "\n"⟩ [] 1 500 none false true
        ⟨0, true, 0, 0, 0, 0, [], [], [], false, none⟩).2 = false
    ∧ (Task ⟨2000, 1, false, 5, 25, 3, false, false, [], ",", "\n"⟩ [] 1 500 none false true
        ⟨0, true, 0, 0, 0, 0, [], [], [], false, none⟩).1.sleepUntil
      ≠ (⟨0, true, 0, 0, 0, 0, [], [], [], false, none⟩ : RunState).sleepUntil := by
  refine ⟨rfl, rfl, by decide⟩

/-- C6 (amended): idle ticks leave the cursor, the per-record failure count,
the run-wide failure count and the fetches-since-last-backoff counter
unchanged; a tick arriving while `now < sleepUntil` leaves the whole state
(including the sleep deadline) unchanged, while a tick hitting the
single-flight guard leaves everything unchanged except the sleep deadline,
which it sets to `now + 200`. -/
theorem c6_idle_frame (cfg : Config) (seed : List Rec) (endLine now : Nat)
    (fetchRes : Option Rec) (limitRate appendOk : Bool) (st : RunState) :
    (st.taskRunning = true →
      Task cfg seed endLine now fetchRes limitRate appendOk st
        = ({ st with sleepUntil := now + 200 }, false))
    ∧ (st.taskRunning = false → st.currentLine < endLine →
        st.currentFailCount < cfg.maxFailCount → now < st.sleepUntil →
        Task cfg seed endLine now fetchRes limitRate appendOk st = (st, false)) := by
  constructor
  · intro h
    simp [Task, h]
  · intro h1 h2 h3 h4
    simp [Task, h1, Nat.not_le.2 h2, Nat.not_le.2 h3, h4]

/-- Witness for C6 (amended): a sleeping tick (`now = 5 < sleepUntil = 10`)
is a perfect no-op. -/
theorem c6_idle_frame_witness :
    Task ⟨2000, 1, false, 5, 25, 3, false, false, [], ",", "\n"⟩ [[]] 1 5 none false true
        ⟨10, false, 0, 0, 0, 0, [], [], [], false, none⟩
      = (⟨10, false, 0, 0, 0, 0, [], [], [], false, none⟩, false) :=
  (c6_idle_frame ⟨2000, 1, false, 5, 25, 3, false, false, [], ",", "\n"⟩ [[]] 1 5 none false
    true ⟨10, false, 0, 0, 0, 0, [], [], [], false, none⟩).2 rfl (by decide) (by decide)
      (by decide)

/-! ### Claim C9 -/

/-- C9 counterexample: on a discarded backoff response the tick changes more
than the fetches-since-last-backoff counter and the sleep deadline — the
successful fetch preceding the discard resets the per-record and run-wide
failure counters (here both drop from 2 to 0). -/
theorem c9_counterexample :
    (⟨0, false, 2, 2, 7, 0, [], [], [], false, none⟩ : RunState).currentRecordFailCount = 2
    ∧ (Task ⟨2000, 1, false, 5, 25, 3, true, false, ["n"], ",", "\n"⟩
        [[("n", Val.str "a")]] 1 0 (some []) true true
        ⟨0, false, 2, 2, 7, 0, [], [], [], false, none⟩).1.currentRecordFailCount = 0
    ∧ (Task ⟨2000, 1, false, 5, 25, 3, true, false, ["n"], ",", "\n"⟩
        [[("n", Val.str "a")]] 1 0 (some []) true true
        ⟨0, false, 2, 2, 7, 0, [], [], [], false, none⟩).1.currentFailCount = 0
    ∧ (Task ⟨2000, 1, false, 5, 25, 3, true, false, ["n"], ",", "\n"⟩
        [[("n", Val.str "a")]] 1 0 (some []) true true
        ⟨0, false, 2, 2, 7, 0, [], [], [], false, none⟩).1.log = [] := by
  refine ⟨rfl, by decide, by decide, by decide⟩

/-- C9 (amended): when the backoff policy fires on a successful fetch and
`discardBackOffResponse` is true, the tick discards the response without
advancing the cursor and without touching the response log, the done-set or
the refine buffer; the fetches-since-last-backoff counter is reset, the
sleep deadline is set to `now + taskBackOffMinutes` in milliseconds, and —
because the fetch itself succeeded — the per-record and run-wide failure
counters are also reset to zero.  The triggering record stays absent from
the done-set, so it is retried after the pause rather than permanently
skipped. -/
theorem c9_discard_frame (cfg : Config) (seed : List Rec) (endLine now : Nat)
    (payload : Rec) (st : RunState)
    (hrun : st.taskRunning = false)
    (hline : st.currentLine < endLine)
    (hfail : st.currentFailCount < cfg.maxFailCount)
    (hsleep : st.sleepUntil ≤ now)
    (hdone : isFetched cfg.names st.doneRecords (getRow seed st.currentLine) = false)
    (hdiscard : cfg.discardBackOffResponse = true) :
    Task cfg seed endLine now (some payload) true true st
      = ({ st with
            currentFailCount := 0
            currentRecordFailCount := 0
            fetchesSinceLastBackOff := 0
            sleepUntil := now + cfg.taskBackOffMinutes * 60 * 1000 }, true)
    ∧ (Task cfg seed endLine now (some payload) true true st).1.currentLine = st.currentLine
    ∧ (Task cfg seed endLine now (some payload) true true st).1.log = st.log
    ∧ (Task cfg seed endLine now (some payload) true true st).1.doneRecords = st.doneRecords
    ∧ (Task cfg seed endLine now (some payload) true true st).1.cachedResponses
        = st.cachedResponses
    ∧ isFetched cfg.names (Task cfg seed endLine now (some payload) true true st).1.doneRecords
        (getRow seed ((Task cfg seed endLine now (some payload) true true st).1.currentLine))
        = false := by
  have hmain : Task cfg seed endLine now (some payload) true true st
      = ({ st with
            currentFailCount := 0
            currentRecordFailCount := 0
            fetchesSinceLastBackOff := 0
            sleepUntil := now + cfg.taskBackOffMinutes * 60 * 1000 }, true) := by
    simp [Task, hrun, hdone, hdiscard, Nat.not_le.2 hline, Nat.not_le.2 hfail,
      Nat.not_lt.2 hsleep]
  refine ⟨hmain, ?_, ?_, ?_, ?_, ?_⟩ <;> rw [hmain] <;> exact hdone ▸ rfl

/-- Witness for C9 (amended): a concrete discarded-backoff tick. -/
theorem c9_discard_frame_witness :
    Task ⟨2000, 1, false, 5, 25, 3, true, false, ["n"], ",", "\n"⟩
        [[("n", Val.str "a")]] 1 40 (some [("d", Val.str "x")]) true true
        ⟨0, false, 2, 2, 7, 0, [], [], [], false, none⟩
      = (⟨40 + 1 * 60 * 1000, false, 0, 0, 0, 0, [], [], [], false, none⟩, true) :=
  (c9_discard_frame ⟨2000, 1, false, 5, 25, 3, true, false, ["n"], ",", "\n"⟩
    [[("n", Val.str "a")]] 1 40 [("d", Val.str "x")]
    ⟨0, false, 2, 2, 7, 0, [], [], [], false, none⟩
    rfl (by decide) (by decide) (by decide) (by decide) rfl).1

/-! ### Claim C1 -/

/-- C1 counterexample: with `maxRecordFailCount = 1`, a fresh record that
fails exactly once (one consecutive transport failure, equal to
`maxRecordFailCount`) is not abandoned: the cursor stays at 0 and the
per-record failure count becomes 1 instead of resetting to 0. -/
theorem c1_counterexample :
    (Task ⟨2000, 1, false, 1, 25, 3, false, false, ["n"], ",", "\n"⟩
        [[("n", Val.str "a")]] 1 0 none false true
        ⟨0, false, 0, 0, 0, 0, [], [], [], false, none⟩).1.currentLine = 0
    ∧ (Task ⟨2000, 1, false, 1, 25, 3, false, false, ["n"], ",", "\n"⟩
        [[("n", Val.str "a")]] 1 0 none false true
        ⟨0, false, 0, 0, 0, 0, [], [], [], false, none⟩).1.currentRecordFailCount = 1 := by
  refine ⟨by decide, by decide⟩

/-! ### Claim C2 -/

theorem tick_busy (cfg : Config) (seed : List Rec) (endLine now : Nat)
    (fetchRes : Option Rec) (limitRate appendOk : Bool) (st : RunState)
    (h : st.taskRunning = true) :
    Task cfg seed endLine now fetchRes limitRate appendOk st
      = ({ st with sleepUntil := now + 200 }, false) := by
  simp [Task, h]

theorem ticksFetch_of_busy (cfg : Config) (seed : List Rec) (endLine : Nat)
    (inputs : List TickInput) (st : RunState) (h : st.taskRunning = true) :
    ticksFetch cfg seed endLine inputs st = false := by
  induction inputs generalizing st with
  | nil => rfl
  | cons i is ih =>
    unfold ticksFetch
    rw [tick_busy cfg seed endLine i.now i.fetchRes i.limitRate i.appendOk st h]
    exact (Bool.false_or _).trans (ih _ h)

theorem tick_failbudget (cfg : Config) (seed : List Rec) (endLine now : Nat)
    (fetchRes : Option Rec) (limitRate appendOk : Bool) (st : RunState)
    (h : cfg.maxFailCount ≤ st.currentFailCount) :
    (Task cfg seed endLine now fetchRes limitRate appendOk st).2 = false
    ∧ (Task cfg seed endLine now fetchRes limitRate appendOk st).1.currentFailCount
        = st.currentFailCount
    ∧ (st.taskRunning = false →
        Task cfg seed endLine now fetchRes limitRate appendOk st = (doStop cfg st, false)) := by
  cases hrun : st.taskRunning with
  | true =>
    rw [tick_busy cfg seed endLine now fetchRes limitRate appendOk st hrun]
    exact ⟨rfl, rfl, fun hh => nomatch hh⟩
  | false =>
    by_cases hline : endLine ≤ st.currentLine
    · simp [Task, hrun, hline, doStop]
    · simp [Task, hrun, hline, h, doStop]

/-- C2: once the run-wide consecutive failure count has reached
`maxFailCount`, no tick of any subsequent tick sequence performs a fetch
attempt, and the next tick executed outside the single-flight guard stops
the run (`Stop()` runs, clearing the interval) and hands the reassembly
pass exactly the outcomes buffered so far (when reassembly is enabled). -/
theorem c2_runwide_abort (cfg : Config) (seed : List Rec) (endLine : Nat) (st : RunState)
    (h : cfg.maxFailCount ≤ st.currentFailCount) :
    (∀ inputs : List TickInput, ticksFetch cfg seed endLine inputs st = false)
    ∧ (∀ (now : Nat) (fetchRes : Option Rec) (limitRate appendOk : Bool),
        st.taskRunning = false →
        (Task cfg seed endLine now fetchRes limitRate appendOk st).1.stopped = true
        ∧ (cfg.postRunRefineEnabled = true →
            (Task cfg seed endLine now fetchRes limitRate appendOk st).1.refineInput
              = some st.cachedResponses)) := by
  constructor
  · intro inputs
    induction inputs generalizing st h with
    | nil => rfl
    | cons i is ih =>
      unfold ticksFetch
      rcases tick_failbudget cfg seed endLine i.now i.fetchRes i.limitRate i.appendOk st h
        with ⟨h2, h1, -⟩
      rw [h2, Bool.false_or]
      exact ih _ (by rw [h1]; exact h)
  · intro now fetchRes limitRate appendOk hrun
    rcases tick_failbudget cfg seed endLine now fetchRes limitRate appendOk st h
      with ⟨-, -, h3⟩
    rw [h3 hrun]
    unfold doStop
    refine ⟨rfl, ?_⟩
    intro he
    simp [he]

/-- Witness for C2: a run whose failure budget (1) is exhausted fetches on
no later tick and stops with the buffered outcome handed to reassembly. -/
theorem c2_runwide_abort_witness :
    (ticksFetch ⟨2000, 1, false, 1, 1, 3, false, true, ["n"], ",", "\n"⟩
        [[("n", Val.str "a")], [("n", Val.str "b")]] 2
        [⟨9000, some [("d", Val.str "x")], false, true⟩, ⟨11000, none, false, true⟩]
        ⟨0, false, 1, 0, 0, 0, [], [⟨[], [("n", Val.str "a")]⟩], [⟨[], [("n", Val.str "a")]⟩],
          false, none⟩ = false)
    ∧ (Task ⟨2000, 1, false, 1, 1, 3, false, true, ["n"], ",", "\n"⟩
        [[("n", Val.str "a")], [("n", Val.str "b")]] 2 9000 (some [("d", Val.str "x")])
        false true
        ⟨0, false, 1, 0, 0, 0, [], [⟨[], [("n", Val.str "a")]⟩], [⟨[], [("n", Val.str "a")]⟩],
          false, none⟩).1.refineInput = some [⟨[], [("n", Val.str "a")]⟩] := by
  have h := c2_runwide_abort ⟨2000, 1, false, 1, 1, 3, false, true, ["n"], ",", "\n"⟩
    [[("n", Val.str "a")], [("n", Val.str "b")]] 2
    ⟨0, false, 1, 0, 0, 0, [], [⟨[], [("n", Val.str "a")]⟩], [⟨[], [("n", Val.str "a")]⟩],
      false, none⟩ (by decide)
  exact ⟨h.1 _, (h.2 9000 (some [("d", Val.str "x")]) false true rfl).2 rfl⟩

/-! ### Claim C8 -/

/-- C8: if the append to the response log raises during an otherwise
eligible successful tick, the tick performs no mutation past the failed
append — the cursor is not advanced and the done-set, the refine buffer and
the log are unchanged — and `taskRunning` is left set, so every subsequent
tick hits the single-flight guard and no further fetch attempt is ever
made. -/
theorem c8_append_failure (cfg : Config) (seed : List Rec) (endLine now : Nat)
    (payload : Rec) (limitRate : Bool) (st : RunState)
    (hrun : st.taskRunning = false)
    (hline : st.currentLine < endLine)
    (hfail : st.currentFailCount < cfg.maxFailCount)
    (hsleep : st.sleepUntil ≤ now)
    (hdone : isFetched cfg.names st.doneRecords (getRow seed st.currentLine) = false)
    (hkeep : (limitRate && cfg.discardBackOffResponse) = false) :
    (Task cfg seed endLine now (some payload) limitRate false st).1.currentLine
        = st.currentLine
    ∧ (Task cfg seed endLine now (some payload) limitRate false st).1.doneRecords
        = st.doneRecords
    ∧ (Task cfg seed endLine now (some payload) limitRate false st).1.cachedResponses
        = st.cachedResponses
    ∧ (Task cfg seed endLine now (some payload) limitRate false st).1.log = st.log
    ∧ (Task cfg seed endLine now (some payload) limitRate false st).1.taskRunning = true
    ∧ ∀ inputs : List TickInput,
        ticksFetch cfg seed endLine inputs
          (Task cfg seed endLine now (some payload) limitRate false st).1 = false := by
  have hmain : Task cfg seed endLine now (some payload) limitRate false st
      = ({ st with
            currentFailCount := 0
            currentRecordFailCount := 0
            fetchesSinceLastBackOff := st.fetchesSinceLastBackOff + 1
            taskRunning := true }, true) := by
    simp [Task, hrun, hdone, hkeep, Nat.not_le.2 hline, Nat.not_le.2 hfail,
      Nat.not_lt.2 hsleep]
  rw [hmain]
  exact ⟨rfl, rfl, rfl, rfl, rfl, fun inputs => ticksFetch_of_busy _ _ _ _ _ rfl⟩

/-- Witness for C8: a concrete failed-append tick freezes the run. -/
theorem c8_append_failure_witness :
    (Task ⟨2000, 1, false, 5, 25, 3, false, true, ["n"], ",", "\n"⟩
        [[("n", Val.str "a")]] 1 0 (some [("d", Val.str "x")]) false false
        ⟨0, false, 0, 0, 0, 0, [], [], [], false, none⟩).1.log = []
    ∧ ticksFetch ⟨2000, 1, false, 5, 25, 3, false, true, ["n"], ",", "\n"⟩
        [[("n", Val.str "a")]] 1 [⟨5000, some [("d", Val.str "x")], false, true⟩]
        (Task ⟨2000, 1, false, 5, 25, 3, false, true, ["n"], ",", "\n"⟩
          [[("n", Val.str "a")]] 1 0 (some [("d", Val.str "x")]) false false
          ⟨0, false, 0, 0, 0, 0, [], [], [], false, none⟩).1 = false := by
  have h := c8_append_failure ⟨2000, 1, false, 5, 25, 3, false, true, ["n"], ",", "\n"⟩
    [[("n", Val.str "a")]] 1 0 [("d", Val.str "x")] false
    ⟨0, false, 0, 0, 0, 0, [], [], [], false, none⟩
    rfl (by decide) (by decide) (by decide) (by decide) rfl
  exact ⟨h.2.2.2.1, h.2.2.2.2.2 _⟩

theorem tick_fail_retry (cfg : Config) (seed : List Rec) (endLine now : Nat) (st : RunState)
    (hrun : st.taskRunning = false)
    (hline : st.currentLine < endLine)
    (hfail : st.currentFailCount < cfg.maxFailCount)
    (hsleep : st.sleepUntil ≤ now)
    (hdone : isFetched cfg.names st.doneRecords (getRow seed st.currentLine) = false)
    (hrec : st.currentRecordFailCount < cfg.maxRecordFailCount) :
    Task cfg seed endLine now none false true st
      = ({ st with
            currentRecordFailCount := st.currentRecordFailCount + 1
            currentFailCount := st.currentFailCount + 1
            sleepUntil := now + cfg.taskInterval * cfg.sleepIntervalsAfterFail }, true) := by
  simp [Task, hrun, hdone, Nat.not_le.2 hline, Nat.not_le.2 hfail, Nat.not_lt.2 hsleep,
    Nat.not_le.2 hrec]

theorem tick_fail_abandon (cfg : Config) (seed : List Rec) (endLine now : Nat) (st : RunState)
    (hrun : st.taskRunning = false)
    (hline : st.currentLine < endLine)
    (hfail : st.currentFailCount < cfg.maxFailCount)
    (hsleep : st.sleepUntil ≤ now)
    (hdone : isFetched cfg.names st.doneRecords (getRow seed st.currentLine) = false)
    (hrec : cfg.maxRecordFailCount ≤ st.currentRecordFailCount) :
    Task cfg seed endLine now none false true st
      = ({ st with
            currentLine := st.currentLine + 1
            currentRecordFailCount := 0
            currentFailCount := st.currentFailCount + 1
            sleepUntil := now + cfg.taskInterval * cfg.sleepIntervalsAfterFail }, true) := by
  simp [Task, hrun, hdone, Nat.not_le.2 hline, Nat.not_le.2 hfail, Nat.not_lt.2 hsleep, hrec]

theorem tick_success (cfg : Config) (seed : List Rec) (endLine now : Nat)
    (payload : Rec) (st : RunState)
    (hrun : st.taskRunning = false)
    (hline : st.currentLine < endLine)
    (hfail : st.currentFailCount < cfg.maxFailCount)
    (hsleep : st.sleepUntil ≤ now)
    (hdone : isFetched cfg.names st.doneRecords (getRow seed st.currentLine) = false) :
    Task cfg seed endLine now (some payload) false true st
      = ({ st with
            currentFailCount := 0
            currentRecordFailCount := 0
            fetchesSinceLastBackOff := st.fetchesSinceLastBackOff + 1
            log := st.log ++ [⟨payload, getRow seed st.currentLine⟩]
            doneRecords :=
              st.doneRecords ++ [getRelevantFields cfg.names (getRow seed st.currentLine)]
            cachedResponses :=
              if cfg.postRunRefineEnabled then
                st.cachedResponses ++ [⟨payload, getRow seed st.currentLine⟩]
              else st.cachedResponses
            sleepUntil := now
            currentLine := st.currentLine + 1 }, true) := by
  simp [Task, hrun, hdone, Nat.not_le.2 hline, Nat.not_le.2 hfail, Nat.not_lt.2 hsleep]

theorem failTicks_spec (cfg : Config) (seed : List Rec) (endLine : Nat) :
    ∀ (k : Nat) (st : RunState),
      st.taskRunning = false →
      st.currentLine < endLine →
      isFetched cfg.names st.doneRecords (getRow seed st.currentLine) = false →
      st.currentRecordFailCount + k ≤ cfg.maxRecordFailCount →
      st.currentFailCount + k ≤ cfg.maxFailCount →
      (failTicks cfg seed endLine k st).currentLine = st.currentLine
      ∧ (failTicks cfg seed endLine k st).currentRecordFailCount
          = st.currentRecordFailCount + k
      ∧ (failTicks cfg seed endLine k st).currentFailCount = st.currentFailCount + k
      ∧ (failTicks cfg seed endLine k st).doneRecords = st.doneRecords
      ∧ (failTicks cfg seed endLine k st).log = st.log
      ∧ (failTicks cfg seed endLine k st).cachedResponses = st.cachedResponses
      ∧ (failTicks cfg seed endLine k st).taskRunning = false := by
  intro k
  induction k with
  | zero =>
    intro st hrun hline hdone hrec hfail
    exact ⟨rfl, rfl, rfl, rfl, rfl, rfl, hrun⟩
  | succ k ih =>
    intro st hrun hline hdone hrec hfail
    have hrec1 : st.currentRecordFailCount < cfg.maxRecordFailCount := by omega
    have hfail1 : st.currentFailCount < cfg.maxFailCount := by omega
    have hstep : failTicks cfg seed endLine (k + 1) st
        = failTicks cfg seed endLine k ({ st with
            currentRecordFailCount := st.currentRecordFailCount + 1
            currentFailCount := st.currentFailCount + 1
            sleepUntil := st.sleepUntil + cfg.taskInterval * cfg.sleepIntervalsAfterFail }) := by
      show failTicks cfg seed endLine k
          (Task cfg seed endLine st.sleepUntil none false true st).1 = _
      rw [tick_fail_retry cfg seed endLine st.sleepUntil st hrun hline hfail1 (Nat.le_refl _)
        hdone hrec1]
    rw [hstep]
    rcases ih { st with
        currentRecordFailCount := st.currentRecordFailCount + 1
        currentFailCount := st.currentFailCount + 1
        sleepUntil := st.sleepUntil + cfg.taskInterval * cfg.sleepIntervalsAfterFail }
      hrun hline hdone (by simp only []; omega) (by simp only []; omega)
      with ⟨e1, e2, e3, e4, e5, e6, e7⟩
    refine ⟨e1, ?_, ?_, e4, e5, e6, e7⟩
    · rw [e2]
      show st.currentRecordFailCount + 1 + k = st.currentRecordFailCount + (k + 1)
      omega
    · rw [e3]
      show st.currentFailCount + 1 + k = st.currentFailCount + (k + 1)
      omega

theorem failTicks_succ (cfg : Config) (seed : List Rec) (endLine : Nat) (k : Nat) :
    ∀ st : RunState,
      failTicks cfg seed endLine (k + 1) st
        = (Task cfg seed endLine (failTicks cfg seed endLine k st).sleepUntil none false true
            (failTicks cfg seed endLine k st)).1 := by
  induction k with
  | zero =>
    intro st
    rfl
  | succ k ih =>
    intro st
    show failTicks cfg seed endLine (k + 1)
        (Task cfg seed endLine st.sleepUntil none false true st).1 = _
    rw [ih]
    rfl

/-- C1 (amended): because the scheduler tests the per-record failure count
against `maxRecordFailCount` before incrementing it, a record is abandoned
(cursor advanced, per-record count reset to zero) only on its
`maxRecordFailCount + 1`-st consecutive transport failure; after up to
`maxRecordFailCount` consecutive failures the record is still current with
the per-record count equal to the number of failures, and a success at that
point resets both failure counts to zero and completes the record (logging
it and advancing the cursor by completion, not abandonment). -/
theorem c1_record_abandon (cfg : Config) (seed : List Rec) (endLine : Nat) (st : RunState)
    (hrun : st.taskRunning = false)
    (hline : st.currentLine < endLine)
    (hdone : isFetched cfg.names st.doneRecords (getRow seed st.currentLine) = false)
    (hrec0 : st.currentRecordFailCount = 0)
    (hfail0 : st.currentFailCount = 0)
    (hbudget : cfg.maxRecordFailCount < cfg.maxFailCount) :
    (∀ k, k ≤ cfg.maxRecordFailCount →
        (failTicks cfg seed endLine k st).currentLine = st.currentLine
        ∧ (failTicks cfg seed endLine k st).currentRecordFailCount = k
        ∧ (failTicks cfg seed endLine k st).log = st.log)
    ∧ (failTicks cfg seed endLine (cfg.maxRecordFailCount + 1) st).currentLine
        = st.currentLine + 1
    ∧ (failTicks cfg seed endLine (cfg.maxRecordFailCount + 1) st).currentRecordFailCount = 0
    ∧ (∀ k, k ≤ cfg.maxRecordFailCount → ∀ payload : Rec,
        (Task cfg seed endLine (failTicks cfg seed endLine k st).sleepUntil (some payload)
            false true (failTicks cfg seed endLine k st)).1.currentRecordFailCount = 0
        ∧ (Task cfg seed endLine (failTicks cfg seed endLine k st).sleepUntil (some payload)
            false true (failTicks cfg seed endLine k st)).1.currentFailCount = 0
        ∧ (Task cfg seed endLine (failTicks cfg seed endLine k st).sleepUntil (some payload)
            false true (failTicks cfg seed endLine k st)).1.currentLine
              = st.currentLine + 1
        ∧ (Task cfg seed endLine (failTicks cfg seed endLine k st).sleepUntil (some payload)
            false true (failTicks cfg seed endLine k st)).1.log
              = st.log ++ [⟨payload, getRow seed st.currentLine⟩]) := by
  have hspec : ∀ k, k ≤ cfg.maxRecordFailCount →
      (failTicks cfg seed endLine k st).currentLine = st.currentLine
      ∧ (failTicks cfg seed endLine k st).currentRecordFailCount = k
      ∧ (failTicks cfg seed endLine k st).currentFailCount = k
      ∧ (failTicks cfg seed endLine k st).doneRecords = st.doneRecords
      ∧ (failTicks cfg seed endLine k st).log = st.log
      ∧ (failTicks cfg seed endLine k st).cachedResponses = st.cachedResponses
      ∧ (failTicks cfg seed endLine k st).taskRunning = false := by
    intro k hk
    have h := failTicks_spec cfg seed endLine k st hrun hline hdone (by omega) (by omega)
    rw [hrec0] at h
    rw [hfail0] at h
    simpa using h
  refine ⟨fun k hk => ⟨(hspec k hk).1, (hspec k hk).2.1, (hspec k hk).2.2.2.2.1⟩, ?_, ?_, ?_⟩
  case _ =>
    rw [failTicks_succ cfg seed endLine cfg.maxRecordFailCount st]
    rcases hspec cfg.maxRecordFailCount (Nat.le_refl _) with ⟨e1, e2, e3, e4, e5, e6, e7⟩
    rw [tick_fail_abandon cfg seed endLine _ _ e7 (by rw [e1]; exact hline)
      (by rw [e3]; omega) (Nat.le_refl _) (by rw [e4, e1]; exact hdone) (by rw [e2])]
    show (failTicks cfg seed endLine cfg.maxRecordFailCount st).currentLine + 1 = _
    rw [e1]
  case _ =>
    rw [failTicks_succ cfg seed endLine cfg.maxRecordFailCount st]
    rcases hspec cfg.maxRecordFailCount (Nat.le_refl _) with ⟨e1, e2, e3, e4, e5, e6, e7⟩
    rw [tick_fail_abandon cfg seed endLine _ _ e7 (by rw [e1]; exact hline)
      (by rw [e3]; omega) (Nat.le_refl _) (by rw [e4, e1]; exact hdone) (by rw [e2])]
  case _ =>
    intro k hk payload
    rcases hspec k hk with ⟨e1, e2, e3, e4, e5, e6, e7⟩
    rw [tick_success cfg seed endLine _ payload _ e7 (by rw [e1]; exact hline)
      (by rw [e3]; omega) (Nat.le_refl _) (by rw [e4, e1]; exact hdone)]
    refine ⟨rfl, rfl, ?_, ?_⟩
    · show (failTicks cfg seed endLine k st).currentLine + 1 = st.currentLine + 1
      rw [e1]
    · show (failTicks cfg seed endLine k st).log
          ++ [⟨payload, getRow seed (failTicks cfg seed endLine k st).currentLine⟩]
        = st.log ++ [⟨payload, getRow seed st.currentLine⟩]
      rw [e1, e5]

/-- Witness for C1 (amended): with `maxRecordFailCount = 2`, two consecutive
failures leave the cursor in place with count 2, the third failure abandons
the record, and two failures followed by a success log the record. -/
theorem c1_record_abandon_witness :
    (failTicks ⟨2000, 1, false, 2, 25, 3, false, false, ["n"], ",", "\n"⟩
        [[("n", Val.str "a")]] 1 2
        ⟨0, false, 0, 0, 0, 0, [], [], [], false, none⟩).currentLine = 0
    ∧ (failTicks ⟨2000, 1, false, 2, 25, 3, false, false, ["n"], ",", "\n"⟩
        [[("n", Val.str "a")]] 1 2
        ⟨0, false, 0, 0, 0, 0, [], [], [], false, none⟩).currentRecordFailCount = 2
    ∧ (failTicks ⟨2000, 1, false, 2, 25, 3, false, false, ["n"], ",", "\n"⟩
        [[("n", Val.str "a")]] 1 3
        ⟨0, false, 0, 0, 0, 0, [], [], [], false, none⟩).currentLine = 0 + 1 := by
  have h := c1_record_abandon ⟨2000, 1, false, 2, 25, 3, false, false, ["n"], ",", "\n"⟩
    [[("n", Val.str "a")]] 1 ⟨0, false, 0, 0, 0, 0, [], [], [], false, none⟩
    rfl (by decide) (by decide) rfl rfl (by decide)
  exact ⟨(h.1 2 (by decide)).1, (h.1 2 (by decide)).2.1, h.2.1⟩

/-! ### Claim C10 -/

theorem loadSeed_getD (mutfn : Rec → Rec) (names : List String) (indices : List Nat)
    (lineTerm sep csv : String) (k : Nat)
    (hk : k < (loadSeedDataCSV mutfn names indices lineTerm sep csv).length) :
    (loadSeedDataCSV mutfn names indices lineTerm sep csv).getD k []
      = mutfn (setField
          (setField
            (buildSeedRec names indices
              (jsSplit sep ((jsSplit lineTerm csv).getD (k + 1) "")))
            "id" (Val.num (k + 1)))
          "org" (Val.str ((jsSplit lineTerm csv).getD (k + 1) ""))) := by
  have hlen : k < (jsSplit lineTerm csv).length - 1 := by
    simpa [loadSeedDataCSV] using hk
  have hk1 : k + 1 < (jsSplit lineTerm csv).length := by omega
  unfold loadSeedDataCSV
  rw [List.getD_eq_getElem?_getD, List.getElem?_map, List.getElem?_drop,
    List.getElem?_enum, Nat.add_comm 1 k, List.getD_eq_getElem?_getD]
  cases hsome : (jsSplit lineTerm csv)[k + 1]? with
  | none =>
    have := List.getElem?_eq_none_iff.1 hsome
    omega
  | some line => simp

/-- C10: seed loading assigns the ordinal identifier to the `id` property
and the raw source line to the `org` property after the declared columns are
copied, so a declared key column named `id` (or `org`) has its source value
overwritten; consequently, when `id` is among the declared key columns, the
dedup membership test compares ordinals — a loaded row matches the
done-record derived from a loaded row exactly when they are the same row,
whatever the source column values were. -/
theorem c10_id_overwrite (names : List String) (indices : List Nat)
    (lineTerm sep csv : String) :
    (∀ k, k < (loadSeedDataCSV id names indices lineTerm sep csv).length →
        getField ((loadSeedDataCSV id names indices lineTerm sep csv).getD k []) "id"
          = Val.num (k + 1)
        ∧ getField ((loadSeedDataCSV id names indices lineTerm sep csv).getD k []) "org"
          = Val.str ((jsSplit lineTerm csv).getD (k + 1) ""))
    ∧ ("id" ∈ names → ∀ j k,
        j < (loadSeedDataCSV id names indices lineTerm sep csv).length →
        k < (loadSeedDataCSV id names indices lineTerm sep csv).length →
        (isFetched names
            [getRelevantFields names
              ((loadSeedDataCSV id names indices lineTerm sep csv).getD j [])]
            ((loadSeedDataCSV id names indices lineTerm sep csv).getD k []) = true
          ↔ j = k)) := by
  have hfields : ∀ k, k < (loadSeedDataCSV id names indices lineTerm sep csv).length →
      getField ((loadSeedDataCSV id names indices lineTerm sep csv).getD k []) "id"
        = Val.num (k + 1)
      ∧ getField ((loadSeedDataCSV id names indices lineTerm sep csv).getD k []) "org"
        = Val.str ((jsSplit lineTerm csv).getD (k + 1) "") := by
    intro k hk
    rw [loadSeed_getD id names indices lineTerm sep csv k hk]
    constructor
    · show getField (setField _ "org" _) "id" = _
      rw [getField_setField_other _ "id" "org" _ (by decide)]
      exact getField_setField_same _ "id" _
    · exact getField_setField_same _ "org" _
  refine ⟨hfields, ?_⟩
  intro hid j k hj hk
  constructor
  · intro hmem
    rcases (isFetched_iff names _ _).1 hmem with ⟨d, hd, hall⟩
    rcases List.mem_singleton.1 hd with rfl
    have h1 := hall "id" hid
    rw [getField_getRelevantFields names _ "id" hid] at h1
    rw [(hfields j hj).1, (hfields k hk).1] at h1
    have := Val.num.inj h1
    omega
  · intro he
    subst he
    exact (isFetched_iff names _ _).2
      ⟨getRelevantFields names ((loadSeedDataCSV id names indices lineTerm sep csv).getD j []),
        List.mem_singleton.2 rfl,
        fun c hc => getField_getRelevantFields names _ c hc⟩

/-- Witness for C10: a seed whose two rows carry the same source value in
the declared `id` column still yields distinct dedup keys (the row matches
itself and not the other row). -/
theorem c10_id_overwrite_witness :
    (isFetched ["id"]
        [getRelevantFields ["id"]
          ((loadSeedDataCSV id ["id"] [1] "\r\n" "," "name,id\r\na,7\r\nb,7").getD 0 [])]
        ((loadSeedDataCSV id ["id"] [1] "\r\n" "," "name,id\r\na,7\r\nb,7").getD 0 []) = true)
    ∧ ¬ (isFetched ["id"]
        [getRelevantFields ["id"]
          ((loadSeedDataCSV id ["id"] [1] "\r\n" "," "name,id\r\na,7\r\nb,7").getD 0 [])]
        ((loadSeedDataCSV id ["id"] [1] "\r\n" "," "name,id\r\na,7\r\nb,7").getD 1 []) = true) := by
  have h := (c10_id_overwrite ["id"] [1] "\r\n" "," "name,id\r\na,7\r\nb,7").2
    (by decide)
  exact ⟨(h 0 0 (by decide) (by decide)).2 rfl,
    fun hmem => absurd ((h 0 1 (by decide) (by decide)).1 hmem) (by decide)⟩

/-! ### Claim C5 -/

theorem refineRest_err_none (cfg : Config) (refineFn : Resp → List (String × String))
    (ks : List String) (l : List Resp) :
    (refineRest cfg refineFn ks l).2 = none ↔
      ∀ r ∈ l, (refineFn r).map Prod.fst = ks := by
  induction l with
  | nil => simp [refineRest]
  | cons r rs ih =>
    unfold refineRest
    by_cases h2 : (refineFn r).map Prod.fst = ks
    · have hC1 : ¬ ((refineFn r).map Prod.fst).length ≠ ks.length :=
        fun hh => hh (congrArg List.length h2)
      have hC2 : ¬ (refineFn r).map Prod.fst ≠ ks := fun hh => hh h2
      rw [if_neg hC1, if_neg hC2]
      show (refineRest cfg refineFn ks rs).2 = none ↔ _
      rw [ih]
      constructor
      · intro h x hx
        rcases List.mem_cons.1 hx with hx | hx
        · rw [hx, h2]
        · exact h x hx
      · intro h x hx
        exact h x (List.mem_cons_of_mem r hx)
    · by_cases h1 : ((refineFn r).map Prod.fst).length = ks.length
      · have hC1 : ¬ ((refineFn r).map Prod.fst).length ≠ ks.length := fun hh => hh h1
        rw [if_neg hC1, if_pos h2]
        constructor
        · intro hh
          exact absurd hh (by simp)
        · intro hall
          exact absurd (hall r (List.mem_cons_self r rs)) h2
      · rw [if_pos h1]
        constructor
        · intro hh
          exact absurd hh (by simp)
        · intro hall
          exact absurd (congrArg List.length (hall r (List.mem_cons_self r rs))) h1

theorem refineRest_err_values (cfg : Config) (refineFn : Resp → List (String × String))
    (ks : List String) (l : List Resp) :
    (refineRest cfg refineFn ks l).2 = none
    ∨ (refineRest cfg refineFn ks l).2 = some refineCountErr
    ∨ (refineRest cfg refineFn ks l).2 = some refineOrderErr := by
  induction l with
  | nil => exact Or.inl rfl
  | cons r rs ih =>
    unfold refineRest
    by_cases h1 : ((refineFn r).map Prod.fst).length ≠ ks.length
    · rw [if_pos h1]
      exact Or.inr (Or.inl rfl)
    · by_cases h2 : (refineFn r).map Prod.fst ≠ ks
      · rw [if_neg h1, if_pos h2]
        exact Or.inr (Or.inr rfl)
      · rw [if_neg h1, if_neg h2]
        exact ih

theorem postRefineBody_err_none (cfg : Config) (refineFn : Resp → List (String × String))
    (columnNames : String) (l : List Resp) :
    (postRefineBody cfg refineFn columnNames l).2 = none ↔
      ∃ ks, ∀ r ∈ l, (refineFn r).map Prod.fst = ks := by
  cases l with
  | nil =>
    simp only [postRefineBody]
    exact ⟨fun _ => ⟨[], by simp⟩, fun _ => trivial⟩
  | cons r rs =>
    show (refineRest cfg refineFn ((refineFn r).map Prod.fst) rs).2 = none ↔ _
    rw [refineRest_err_none]
    constructor
    · intro h
      refine ⟨(refineFn r).map Prod.fst, ?_⟩
      intro x hx
      rcases List.mem_cons.1 hx with hx | hx
      · rw [hx]
      · exact h x hx
    · rintro ⟨ks, hks⟩
      intro x hx
      rw [hks x (List.mem_cons_of_mem r hx), hks r (List.mem_cons_self r rs)]

/-- C5: the reassembly pass fails (with one of the two consistency-error
messages the source throws) exactly when the refine collaborator does not
return the same key list — same count, same keys in the same order — on
every buffered outcome; and whether it fails or not, the response log is
never touched by the reassembly pass. -/
theorem c5_refine_consistency (cfg : Config) (refineFn : Resp → List (String × String))
    (columnNames : String) (responses : List Resp) (w : FileState) :
    (postRefineFS cfg refineFn columnNames responses w).1.responseLog = w.responseLog
    ∧ ((postRefineFS cfg refineFn columnNames responses w).2 = none
        ↔ ∃ ks, ∀ r ∈ responses, (refineFn r).map Prod.fst = ks)
    ∧ (∀ e, (postRefineFS cfg refineFn columnNames responses w).2 = some e →
        e = refineCountErr ∨ e = refineOrderErr) := by
  have hmem : ∀ x : Resp,
      x ∈ (if cfg.randomizeSeedOrder then sortResponses responses else responses)
        ↔ x ∈ responses := by
    intro x
    by_cases hr : cfg.randomizeSeedOrder
    · rw [if_pos hr]
      exact (List.perm_insertionSort _ responses).mem_iff
    · rw [if_neg hr]
  refine ⟨rfl, ?_, ?_⟩
  · show (postRefineBody cfg refineFn columnNames _).2 = none ↔ _
    rw [postRefineBody_err_none]
    constructor
    · rintro ⟨ks, hks⟩
      exact ⟨ks, fun r hr => hks r ((hmem r).2 hr)⟩
    · rintro ⟨ks, hks⟩
      exact ⟨ks, fun r hr => hks r ((hmem r).1 hr)⟩
  · intro e he
    have hv : (postRefineBody cfg refineFn columnNames
        (if cfg.randomizeSeedOrder then sortResponses responses else responses)).2 = some e :=
      he
    cases hl : (if cfg.randomizeSeedOrder then sortResponses responses else responses) with
    | nil =>
      rw [hl] at hv
      simp [postRefineBody] at hv
    | cons r rs =>
      rw [hl] at hv
      have hv2 : (refineRest cfg refineFn ((refineFn r).map Prod.fst) rs).2 = some e := hv
      rcases refineRest_err_values cfg refineFn ((refineFn r).map Prod.fst) rs with hw | hw | hw
      · rw [hw] at hv2
        exact nomatch hv2
      · rw [hw] at hv2
        exact Or.inl (Option.some.inj hv2).symm
      · rw [hw] at hv2
        exact Or.inr (Option.some.inj hv2).symm

/-! ### Claim C4 -/

/-- Concatenation of the written lines, in order. -/
def concatLines : List String → String
  | [] => ""
  | s :: rest => s ++ concatLines rest

theorem sortResponses_eq (responses L : List Resp)
    (hperm : responses.Perm L)
    (hsorted : L.Sorted (fun a b => seedId a < seedId b)) :
    sortResponses responses = L := by
  haveI instTot : IsTotal Resp (fun a b => seedId a ≤ seedId b) :=
    ⟨fun a b => Nat.le_total _ _⟩
  haveI instTrans : IsTrans Resp (fun a b => seedId a ≤ seedId b) :=
    ⟨fun a b c h1 h2 => Nat.le_trans h1 h2⟩
  haveI instAnti : IsAntisymm Resp (fun a b => seedId a < seedId b) :=
    ⟨fun a b h1 h2 => absurd (Nat.lt_trans h1 h2) (Nat.lt_irrefl _)⟩
  have hperm2 : (sortResponses responses).Perm L :=
    (List.perm_insertionSort _ responses).trans hperm
  have hsortedLe : (sortResponses responses).Sorted (fun a b => seedId a ≤ seedId b) :=
    List.sorted_insertionSort _ responses
  have hneL : L.Pairwise (fun a b => seedId a ≠ seedId b) :=
    List.Pairwise.imp (fun h => Nat.ne_of_lt h) hsorted
  have hneS : (sortResponses responses).Pairwise (fun a b => seedId a ≠ seedId b) :=
    (List.Perm.pairwise_iff (fun h => Ne.symm h) hperm2).2 hneL
  have hsortedLt : (sortResponses responses).Sorted (fun a b => seedId a < seedId b) :=
    List.Pairwise.imp (fun h => Nat.lt_of_le_of_ne h.1 h.2)
      (List.Pairwise.and hsortedLe hneS)
  exact List.eq_of_perm_of_sorted hperm2 hsortedLt hsorted

theorem refineRest_consistent (cfg : Config) (refineFn : Resp → List (String × String))
    (ks : List String) (l : List Resp)
    (h : ∀ r ∈ l, (refineFn r).map Prod.fst = ks) :
    refineRest cfg refineFn ks l
      = (concatLines (l.map (fun r => refineLine cfg r (refineFn r))), none) := by
  induction l with
  | nil => simp [refineRest, concatLines]
  | cons r rs ih =>
    unfold refineRest
    have h2 : (refineFn r).map Prod.fst = ks := h r (List.mem_cons_self r rs)
    rw [if_neg (fun hh => hh (congrArg List.length h2)), if_neg (fun hh => hh h2)]
    rw [ih (fun x hx => h x (List.mem_cons_of_mem r hx))]
    rfl

theorem postRefineBody_consistent (cfg : Config) (refineFn : Resp → List (String × String))
    (columnNames : String) (r : Resp) (rs : List Resp) (ks : List String)
    (h : ∀ x ∈ r :: rs, (refineFn x).map Prod.fst = ks) :
    postRefineBody cfg refineFn columnNames (r :: rs)
      = (headerLine cfg columnNames ks
          ++ concatLines ((r :: rs).map (fun x => refineLine cfg x (refineFn x))), none) := by
  have h0 : (refineFn r).map Prod.fst = ks := h r (List.mem_cons_self r rs)
  have hrest : ∀ x ∈ rs, (refineFn x).map Prod.fst = (refineFn r).map Prod.fst :=
    fun x hx => (h x (List.mem_cons_of_mem r hx)).trans h0.symm
  show (headerLine cfg columnNames ((refineFn r).map Prod.fst) ++ refineLine cfg r (refineFn r)
      ++ (refineRest cfg refineFn ((refineFn r).map Prod.fst) rs).1,
      (refineRest cfg refineFn ((refineFn r).map Prod.fst) rs).2) = _
  rw [refineRest_consistent cfg refineFn _ rs hrest, h0]
  show (headerLine cfg columnNames ks ++ refineLine cfg r (refineFn r)
      ++ concatLines (rs.map (fun x => refineLine cfg x (refineFn x))), none) = _
  rw [String.append_assoc]
  rfl

/-- C4: with permutation enabled and a schema-consistent refine collaborator,
`postRefineCSV` first reorders the buffered outcomes into ascending seed-row
ordinal order (the unique such order when ordinals are distinct, here
witnessed by the strictly sorted list `L`), and the produced output is the
header line — the original header plus the collaborator's new field names —
followed by, per outcome in original seed order, the verbatim original raw
seed line plus the collaborator's new field values joined with the
configured separator and terminated with the configured line terminator;
any permutation of the buffered outcomes (any completion order) produces
the identical output. -/
theorem c4_refine_roundtrip (cfg : Config) (refineFn : Resp → List (String × String))
    (columnNames : String) (responses L : List Resp) (ks : List String)
    (hrand : cfg.randomizeSeedOrder = true)
    (hks : ∀ r ∈ responses, (refineFn r).map Prod.fst = ks)
    (hperm : responses.Perm L)
    (hsorted : L.Sorted (fun a b => seedId a < seedId b))
    (hne : responses ≠ []) :
    postRefineCSV cfg refineFn columnNames responses
      = (headerLine cfg columnNames ks
          ++ concatLines (L.map (fun r => refineLine cfg r (refineFn r))), none)
    ∧ ∀ responses' : List Resp, responses'.Perm responses →
        postRefineCSV cfg refineFn columnNames responses'
          = postRefineCSV cfg refineFn columnNames responses := by
  have main : ∀ rsp : List Resp, rsp.Perm L → (∀ r ∈ rsp, (refineFn r).map Prod.fst = ks) →
      rsp ≠ [] →
      postRefineCSV cfg refineFn columnNames rsp
        = (headerLine cfg columnNames ks
            ++ concatLines (L.map (fun r => refineLine cfg r (refineFn r))), none) := by
    intro rsp hp hk hrne
    unfold postRefineCSV
    rw [if_pos hrand, sortResponses_eq rsp L hp hsorted]
    cases hL : L with
    | nil =>
      rw [hL] at hp
      exact absurd (List.Perm.eq_nil hp) hrne
    | cons r rs =>
      apply postRefineBody_consistent
      intro x hx
      exact hk x (hp.mem_iff.2 (hL ▸ hx))
  refine ⟨main responses hperm hks hne, ?_⟩
  intro responses' hp'
  have hne' : responses' ≠ [] := by
    intro hh
    rw [hh] at hp'
    exact hne (List.Perm.eq_nil hp'.symm)
  rw [main responses' (hp'.trans hperm) (fun r hr => hks r (hp'.mem_iff.1 hr)) hne',
    main responses hperm hks hne]

/-- Witness for C4: two outcomes buffered in completion order (ordinals 2
then 1) are reassembled into original seed order with the new field
appended. -/
theorem c4_refine_roundtrip_witness :
    postRefineCSV ⟨2000, 1, true, 5, 25, 3, false, true, ["n"], ",", "\n"⟩
        (fun r => [("new", seedOrg r ++ "!")]) "h1,h2"
        [⟨[("v", Val.str "1")], [("id", Val.num 2), ("org", Val.str "b,2")]⟩,
         ⟨[("v", Val.str "2")], [("id", Val.num 1), ("org", Val.str "a,1")]⟩]
      = (headerLine ⟨2000, 1, true, 5, 25, 3, false, true, ["n"], ",", "\n"⟩ "h1,h2" ["new"]
          ++ concatLines
            ([⟨[("v", Val.str "2")], [("id", Val.num 1), ("org", Val.str "a,1")]⟩,
              ⟨[("v", Val.str "1")], [("id", Val.num 2), ("org", Val.str "b,2")]⟩].map
              (fun r => refineLine ⟨2000, 1, true, 5, 25, 3, false, true, ["n"], ",", "\n"⟩ r
                [("new", seedOrg r ++ "!")])), none) :=
  (c4_refine_roundtrip ⟨2000, 1, true, 5, 25, 3, false, true, ["n"], ",", "\n"⟩
    (fun r => [("new", seedOrg r ++ "!")]) "h1,h2"
    [⟨[("v", Val.str "1")], [("id", Val.num 2), ("org", Val.str "b,2")]⟩,
     ⟨[("v", Val.str "2")], [("id", Val.num 1), ("org", Val.str "a,1")]⟩]
    [⟨[("v", Val.str "2")], [("id", Val.num 1), ("org", Val.str "a,1")]⟩,
     ⟨[("v", Val.str "1")], [("id", Val.num 2), ("org", Val.str "b,2")]⟩]
    ["new"] rfl (by decide)
    (List.Perm.swap _ _ _)
    (by simp [List.sorted_cons]; decide)
    (by decide)).1

/-- Witness for C5: a schema-consistent collaborator reassembles without an
error and the response log is untouched. -/
theorem c5_refine_consistency_witness :
    (postRefineFS ⟨2000, 1, true, 5, 25, 3, false, true, ["n"], ",", "\n"⟩
        (fun r => [("new", seedOrg r)]) "h1,h2"
        [⟨[("v", Val.str "1")], [("id", Val.num 2), ("org", Val.str "b,2")]⟩,
         ⟨[("v", Val.str "2")], [("id", Val.num 1), ("org", Val.str "a,1")]⟩]
        ⟨"LOG", none⟩).2 = none
    ∧ (postRefineFS ⟨2000, 1, true, 5, 25, 3, false, true, ["n"], ",", "\n"⟩
        (fun r => [("new", seedOrg r)]) "h1,h2"
        [⟨[("v", Val.str "1")], [("id", Val.num 2), ("org", Val.str "b,2")]⟩,
         ⟨[("v", Val.str "2")], [("id", Val.num 1), ("org", Val.str "a,1")]⟩]
        ⟨"LOG", none⟩).1.responseLog = "LOG" :=
  ⟨(c5_refine_consistency ⟨2000, 1, true, 5, 25, 3, false, true, ["n"], ",", "\n"⟩
      (fun r => [("new", seedOrg r)]) "h1,h2"
      [⟨[("v", Val.str "1")], [("id", Val.num 2), ("org", Val.str "b,2")]⟩,
       ⟨[("v", Val.str "2")], [("id", Val.num 1), ("org", Val.str "a,1")]⟩]
      ⟨"LOG", none⟩).2.1.mpr ⟨["new"], by decide⟩,
   (c5_refine_consistency ⟨2000, 1, true, 5, 25, 3, false, true, ["n"], ",", "\n"⟩
      (fun r => [("new", seedOrg r)]) "h1,h2"
      [⟨[("v", Val.str "1")], [("id", Val.num 2), ("org", Val.str "b,2")]⟩,
       ⟨[("v", Val.str "2")], [("id", Val.num 1), ("org", Val.str "a,1")]⟩]
      ⟨"LOG", none⟩).1⟩

end DataFetcher
